import Mathlib

/-!
Verification of the labor-map data-acquisition pipeline.

Shallow embedding of the two fetch scripts (`scripts/fetch-oews.js` for the
software-developer wage statistic and `scripts/fetch-laus.js` for the state
unemployment rate), their shared merge-into-`latest.json` logic, and the
`scripts/fetch-bls.js` orchestrator.

Modelling conventions:
* A JS number is `Option ℚ`: `some q` is a finite number, `none` is a
  non-finite result (`NaN` / `Infinity`), which `Number.isFinite` rejects.
* A JSON object field that may be absent is `Option _`; an explicit JSON
  `null` inside a present field is the inner `none` of `Option (Option ℚ)`.
* The persisted dataset `latest.json` is an association list keyed by state
  postal abbreviation, in JS-object insertion order; `out[k]` reads the first
  binding and `out[k] = v` updates the first binding in place or appends.
* Network calls are modelled by passing their outcome (`Except` of the thrown
  error-message string, or the parsed result) as an explicit argument.
-/

namespace LaborMap

/-- One per-state record of `latest.json`: `{ unemployment_rate, swdev_wage }`.
The outer `Option` is field presence, the inner one is `number` vs `null`. -/
structure MetricRecord where
  unemployment_rate : Option (Option ℚ)
  swdev_wage : Option (Option ℚ)
deriving DecidableEq, Repr

/-- The persisted dataset: a JS object, keys in insertion order. -/
abbrev Dataset := List (String × MetricRecord)

/-- JS property read `o[k]`: first binding wins, absent key gives `undefined`. -/
def objGet {β : Type} : List (String × β) → String → Option β
  | [], _ => none
  | (k, v) :: t, a => if k = a then some v else objGet t a

/-- JS property write `o[k] = v`: update the first binding in place,
or append a new binding at the end of the object. -/
def objSet {β : Type} : List (String × β) → String → β → List (String × β)
  | [], a, r => [(a, r)]
  | (k, v) :: t, a, r => if k = a then (k, r) :: t else (k, v) :: objSet t a r

/-- `STATES` table shared by both fetch scripts: lower-48 states plus DC,
postal abbreviation to two-digit FIPS code (AK and HI are skipped). -/
def STATES : List (String × String) :=
  [("AL", "01"), ("AZ", "04"), ("AR", "05"), ("CA", "06"), ("CO", "08"),
   ("CT", "09"), ("DE", "10"), ("FL", "12"), ("GA", "13"), ("ID", "16"),
   ("IL", "17"), ("IN", "18"), ("IA", "19"), ("KS", "20"), ("KY", "21"),
   ("LA", "22"), ("ME", "23"), ("MD", "24"), ("MA", "25"), ("MI", "26"),
   ("MN", "27"), ("MS", "28"), ("MO", "29"), ("MT", "30"), ("NE", "31"),
   ("NV", "32"), ("NH", "33"), ("NJ", "34"), ("NM", "35"), ("NY", "36"),
   ("NC", "37"), ("ND", "38"), ("OH", "39"), ("OK", "40"), ("OR", "41"),
   ("PA", "42"), ("RI", "44"), ("SC", "45"), ("SD", "46"), ("TN", "47"),
   ("TX", "48"), ("UT", "49"), ("VT", "50"), ("VA", "51"), ("WA", "53"),
   ("WV", "54"), ("WI", "55"), ("WY", "56"), ("DC", "11")]

/-- `SEASONAL = "U"` (`fetch-oews.js`). -/
def SEASONAL : String := "U"

/-- `AREATYPE = "S"` (`fetch-oews.js`). -/
def AREATYPE : String := "S"

/-- `INDUSTRY = "000000"` (`fetch-oews.js`). -/
def INDUSTRY : String := "000000"

/-- `SOC = "151252"` (`fetch-oews.js`). -/
def SOC : String := "151252"

/-- `PRIMARY_DATATYPE = "04"`, annual mean wage (`fetch-oews.js`). -/
def PRIMARY_DATATYPE : String := "04"

/-- `FALLBACK_DATATYPES = ["03"]`, hourly mean wage (`fetch-oews.js`). -/
def FALLBACK_DATATYPES : List String := ["03"]

/-- `areaCodeFromFips` (`fetch-oews.js` line 36): 7-digit OEWS area code,
the two FIPS digits padded with five trailing zeros. -/
def areaCodeFromFips (fips2 : String) : String :=
  fips2 ++ "00000"

/-- `makeSeriesIdFromArea` (`fetch-oews.js` line 40): OEWS series identifier
`OE ++ seasonal ++ areatype ++ area_code(7) ++ industry(6) ++ occupation(6)
++ datatype(2)`. -/
def makeSeriesIdFromArea (area_code datatype : String) : String :=
  "OE" ++ SEASONAL ++ AREATYPE ++ area_code ++ INDUSTRY ++ SOC ++ datatype

/-- `buildSeriesId` (`fetch-laus.js` line 24): LAUS statewide seasonally
adjusted unemployment-rate identifier `LA ++ "S" ++ (ST ++ fips2 ++
"0".repeat(11)) ++ "03"`. -/
def buildSeriesId (fips2 : String) : String :=
  "LA" ++ "S" ++ ("ST" ++ fips2 ++ String.mk (List.replicate 11 '0')) ++ "03"

/-- Claim C1: series-identifier construction is a pure deterministic function
of (region code, data-type code, family); `buildId("06", "04", wage-family)`
and `buildId("48", "04", wage-family)` each equal one fixed literal golden
string of the known-good fixed-length encoding (prefix, seasonal flag,
area-type flag, zero-padded area code, industry code, occupation code,
two-digit data-type suffix).  `makeSeriesIdFromArea ∘ areaCodeFromFips` is a
pure Lean function, hence referentially transparent; the theorem states the
two golden values and the general fixed-length shape for every region code
and data-type code. -/
theorem buildId_deterministic_golden :
    makeSeriesIdFromArea (areaCodeFromFips "06") "04" =
      "OEUS060000000000015125204" ∧
    makeSeriesIdFromArea (areaCodeFromFips "48") "04" =
      "OEUS480000000000015125204" ∧
    ∀ fips2 datatype : String,
      makeSeriesIdFromArea (areaCodeFromFips fips2) datatype =
        "OEUS" ++ fips2 ++ "00000000000151252" ++ datatype := by
  refine ⟨by decide, by decide, fun fips2 datatype => ?_⟩
  apply String.ext
  simp [makeSeriesIdFromArea, areaCodeFromFips, SEASONAL, AREATYPE, INDUSTRY,
    SOC]

/-- One `{period, value}` observation row of a BLS API series. -/
structure SeriesData where
  period : String
  value : String
deriving DecidableEq, Repr

/-- One element of `Results.series` in a BLS API response. -/
structure Series where
  seriesID : String
  data : List SeriesData
deriving DecidableEq, Repr

/-- Digit list to natural number, `acc * 10 + digit`. -/
def digitsToNat (l : List Char) : ℕ :=
  l.foldl (fun acc c => acc * 10 + (c.toNat - 48)) 0

/-- JS `parseFloat` restricted to the decimal numerals the BLS API emits:
optional sign, integer digits, optional `.` and fraction digits, any
trailing garbage ignored; `none` models `NaN` (no parsable number). -/
def parseFloat (s : String) : Option ℚ :=
  let l := s.toList
  let sl : ℚ × List Char :=
    match l with
    | '-' :: t => (-1, t)
    | '+' :: t => (1, t)
    | _ => (1, l)
  let intPart := sl.2.takeWhile Char.isDigit
  let rest := sl.2.dropWhile Char.isDigit
  let fracPart : List Char :=
    match rest with
    | '.' :: t => t.takeWhile Char.isDigit
    | _ => []
  if intPart = [] ∧ fracPart = [] then none
  else
    some (sl.1 * ((digitsToNat intPart : ℚ) +
      (digitsToNat fracPart : ℚ) / (10 ^ fracPart.length)))

/-- JS `Math.round`: round half toward positive infinity. -/
def jsRound (q : ℚ) : ℤ := ⌊q + 1 / 2⌋

/-- `id.substring(5, 7)` of a LAUS series identifier: the two FIPS digits
after the `LASST` prefix (`fetch-laus.js` line 78). -/
def fipsOfSeries (id : String) : String :=
  String.mk ((id.toList.drop 5).take 2)

/-- `Object.keys(STATES).find(k => STATES[k] === fips2)`
(`fetch-laus.js` line 79): first abbreviation mapped to the FIPS code. -/
def abbrOfFips (fips2 : String) : Option String :=
  (STATES.find? (fun p => p.2 = fips2)).map Prod.fst

/-- The state key a LAUS response series updates, if any. -/
def lausKey (s : Series) : Option String :=
  abbrOfFips (fipsOfSeries s.seriesID)

/-- The latest observation of a series is missing or empty:
`!row || row.value === ""` for `row = (s.data || [])[0]`. -/
def isEmptyRow (s : Series) : Bool :=
  match s.data.head? with
  | none => true
  | some row => row.value = ""

/-- Effect of one LAUS response series on one state's record
(`fetch-laus.js` lines 82-92): an empty latest row only materialises an
explicit `unemployment_rate: null` when the field was absent; a non-empty
row overwrites `unemployment_rate` with `parseFloat(value)` when finite,
`null` otherwise.  `swdev_wage` is never written. -/
def lausApply (s : Series) (x : Option MetricRecord) : MetricRecord :=
  let r0 := match x with
    | none => (⟨none, none⟩ : MetricRecord)    -- `out[abbr] = {}`
    | some r => r
  match s.data.head? with
  | none =>
      if r0.unemployment_rate = none then
        { r0 with unemployment_rate := some none }
      else r0
  | some row =>
      if row.value = "" then
        (if r0.unemployment_rate = none then
          { r0 with unemployment_rate := some none }
        else r0)
      else
        { r0 with unemployment_rate := some (parseFloat row.value) }

/-- One iteration of the LAUS merge loop (`fetch-laus.js` lines 76-93):
series whose FIPS digits match no state are skipped (`if (!abbr) continue`). -/
def lausStep (out : Dataset) (s : Series) : Dataset :=
  match lausKey s with
  | none => out
  | some abbr => objSet out abbr (lausApply s (objGet out abbr))

/-- The LAUS merge (`fetch-laus.js` lines 72-93): fold the response series
into the existing `latest.json` object. -/
def lausMerge (d : Dataset) (series : List Series) : Dataset :=
  series.foldl lausStep d

/-- Per-state wage value of the OEWS merge (`fetch-oews.js` lines 113-121):
the primary annual-mean value when present; else, when the primary key is
absent (`val == null`) and a finite hourly fallback exists,
`Math.round(hourly * 2080)`; else no finite value. -/
def oewsVal (vp vf : List (String × Option ℚ)) (fips : String) : Option ℚ :=
  match objGet vp (makeSeriesIdFromArea (areaCodeFromFips fips)
      PRIMARY_DATATYPE) with
  | some v => v
  | none =>
      match objGet vf (makeSeriesIdFromArea (areaCodeFromFips fips) "03") with
      | some (some hourly) => some ((jsRound (hourly * 2080) : ℤ) : ℚ)
      | _ => none

/-- Effect of the OEWS merge on one state's record
(`fetch-oews.js` lines 123-124): default-create
`{ unemployment_rate: null, swdev_wage: null }` when the record is absent,
then write `swdev_wage` only when the resolved value is finite. -/
def oewsApply (val : Option ℚ) (x : Option MetricRecord) : MetricRecord :=
  let r0 := match x with
    | none => (⟨some none, some none⟩ : MetricRecord)
    | some r => r
  match val with
  | some v => { r0 with swdev_wage := some (some v) }
  | none => r0

/-- One iteration of the OEWS merge loop (`fetch-oews.js` lines 112-125). -/
def oewsStep (vp vf : List (String × Option ℚ)) (out : Dataset)
    (p : String × String) : Dataset :=
  objSet out p.1 (oewsApply (oewsVal vp vf p.2) (objGet out p.1))

/-- The OEWS merge (`fetch-oews.js` lines 111-125): every entry of `STATES`
is visited, with the resolved primary/fallback values folded into the
existing `latest.json` object. -/
def oewsMerge (d : Dataset) (vp vf : List (String × Option ℚ)) : Dataset :=
  STATES.foldl (oewsStep vp vf) d

section MergeFold

variable {σ : Type}

/-- Common shape of one iteration of either merge loop: resolve the state
key of the element (skipping keyless elements) and rewrite that key's record
as a function of its current value. -/
def mstep (key : σ → Option String) (F : σ → Option MetricRecord → MetricRecord)
    (out : Dataset) (s : σ) : Dataset :=
  match key s with
  | none => out
  | some a => objSet out a (F s (objGet out a))

/-- Common shape of either merge loop. -/
def mfold (key : σ → Option String)
    (F : σ → Option MetricRecord → MetricRecord)
    (d : Dataset) (L : List σ) : Dataset :=
  L.foldl (mstep key F) d

theorem mstep_none (key : σ → Option String)
    (F : σ → Option MetricRecord → MetricRecord) (d : Dataset) (s : σ)
    (hk : key s = none) : mstep key F d s = d := by
  unfold mstep
  rw [hk]

theorem mstep_some (key : σ → Option String)
    (F : σ → Option MetricRecord → MetricRecord) (d : Dataset) (s : σ)
    (a : String) (hk : key s = some a) :
    mstep key F d s = objSet d a (F s (objGet d a)) := by
  unfold mstep
  rw [hk]

theorem mfold_cons (key : σ → Option String)
    (F : σ → Option MetricRecord → MetricRecord) (d : Dataset) (s : σ)
    (T : List σ) : mfold key F d (s :: T) = mfold key F (mstep key F d s) T :=
  rfl

theorem lausStep_eq_mstep (out : Dataset) (s : Series) :
    lausStep out s = mstep lausKey lausApply out s := rfl

theorem lausMerge_eq_mfold (d : Dataset) (S : List Series) :
    lausMerge d S = mfold lausKey lausApply d S := rfl

theorem oewsStep_eq_mstep (vp vf : List (String × Option ℚ)) (out : Dataset)
    (p : String × String) :
    oewsStep vp vf out p =
      mstep (fun q => some q.1) (fun q => oewsApply (oewsVal vp vf q.2)) out
        p := rfl

theorem oewsMerge_eq_mfold (d : Dataset) (vp vf : List (String × Option ℚ)) :
    oewsMerge d vp vf =
      mfold (fun q => some q.1) (fun q => oewsApply (oewsVal vp vf q.2)) d
        STATES := rfl

theorem objGet_objSet_self {β : Type} (d : List (String × β)) (a : String)
    (r : β) : objGet (objSet d a r) a = some r := by
  induction d with
  | nil => simp [objGet, objSet]
  | cons h t ih =>
      obtain ⟨k, v⟩ := h
      by_cases hk : k = a <;> simp [objGet, objSet, hk, ih]

theorem objGet_objSet_ne {β : Type} (d : List (String × β)) (a b : String)
    (r : β) (h : b ≠ a) : objGet (objSet d a r) b = objGet d b := by
  induction d with
  | nil => simp [objGet, objSet, Ne.symm h]
  | cons hd t ih =>
      obtain ⟨k, v⟩ := hd
      by_cases hk : k = a
      · subst hk
        simp [objGet, objSet, Ne.symm h]
      · simp only [objSet, if_neg hk, objGet]
        by_cases hkb : k = b <;> simp [hkb, ih]

theorem objSet_self {β : Type} (d : List (String × β)) (a : String) (r : β)
    (h : objGet d a = some r) : objSet d a r = d := by
  induction d with
  | nil => simp [objGet] at h
  | cons hd t ih =>
      obtain ⟨k, v⟩ := hd
      by_cases hk : k = a
      · subst hk
        simp [objGet] at h
        simp [objSet, h]
      · simp [objGet, hk] at h
        simp [objSet, hk, ih h]

theorem objGet_mstep_ne (key : σ → Option String)
    (F : σ → Option MetricRecord → MetricRecord) (d : Dataset) (s : σ)
    (a : String) (h : key s ≠ some a) :
    objGet (mstep key F d s) a = objGet d a := by
  unfold mstep
  cases hk : key s with
  | none => rfl
  | some b =>
      have hb : a ≠ b := by
        intro hab
        exact h (hab ▸ hk)
      exact objGet_objSet_ne d b a _ hb

theorem objGet_mfold_ne (key : σ → Option String)
    (F : σ → Option MetricRecord → MetricRecord) (d : Dataset) (L : List σ)
    (a : String) (h : ∀ s ∈ L, key s ≠ some a) :
    objGet (mfold key F d L) a = objGet d a := by
  induction L generalizing d with
  | nil => rfl
  | cons s T ih =>
      have hs : key s ≠ some a := h s (by simp)
      have hT : ∀ t ∈ T, key t ≠ some a := fun t ht => h t (by simp [ht])
      calc objGet (mfold key F (mstep key F d s) T) a
          = objGet (mstep key F d s) a := ih _ hT
        _ = objGet d a := objGet_mstep_ne key F d s a hs

theorem objGet_mfold_mem (key : σ → Option String)
    (F : σ → Option MetricRecord → MetricRecord) (d : Dataset) (L : List σ)
    (s : σ) (a : String) (hnd : (L.filterMap key).Nodup) (hs : s ∈ L)
    (hk : key s = some a) :
    objGet (mfold key F d L) a = some (F s (objGet d a)) := by
  induction L generalizing d with
  | nil => cases hs
  | cons t T ih =>
      rcases List.mem_cons.mp hs with h | h
      · subst h
        have hT : ∀ u ∈ T, key u ≠ some a := by
          intro u hu hku
          have : a ∈ T.filterMap key := List.mem_filterMap.mpr ⟨u, hu, hku⟩
          rw [List.filterMap_cons_some hk] at hnd
          exact (List.nodup_cons.mp hnd).1 this
        have : objGet (mfold key F (mstep key F d s) T) a
            = objGet (mstep key F d s) a := objGet_mfold_ne key F _ T a hT
        rw [mfold_cons, this, mstep, hk]
        exact objGet_objSet_self d a _
      · have hknd : (T.filterMap key).Nodup := by
          cases hkt : key t with
          | none => rwa [List.filterMap_cons_none hkt] at hnd
          | some b =>
              rw [List.filterMap_cons_some hkt] at hnd
              exact (List.nodup_cons.mp hnd).2
        have hkt : key t ≠ some a := by
          intro hkt
          have : a ∈ T.filterMap key := List.mem_filterMap.mpr ⟨s, h, hk⟩
          rw [List.filterMap_cons_some hkt] at hnd
          exact (List.nodup_cons.mp hnd).1 this
        rw [mfold_cons, ih _ hknd h, objGet_mstep_ne key F d t a hkt]

/-- Applying the same merge fold twice is the same as applying it once,
provided the update touches each state key at most once and the per-record
effect is idempotent. -/
theorem mfold_idem (key : σ → Option String)
    (F : σ → Option MetricRecord → MetricRecord) (d : Dataset) (L : List σ)
    (hnd : (L.filterMap key).Nodup)
    (hF : ∀ s x, F s (some (F s x)) = F s x) :
    mfold key F (mfold key F d L) L = mfold key F d L := by
  induction L generalizing d with
  | nil => rfl
  | cons s T ih =>
      cases hk : key s with
      | none =>
          have hstep : ∀ d' : Dataset, mstep key F d' s = d' := by
            intro d'
            unfold mstep
            rw [hk]
          rw [mfold_cons, mfold_cons, hstep, hstep]
          refine ih _ ?_
          rwa [List.filterMap_cons_none hk] at hnd
      | some a =>
          rw [List.filterMap_cons_some hk] at hnd
          obtain ⟨hna, hndT⟩ := List.nodup_cons.mp hnd
          have hT : ∀ u ∈ T, key u ≠ some a := by
            intro u hu hku
            exact hna (List.mem_filterMap.mpr ⟨u, hu, hku⟩)
          rw [mfold_cons, mfold_cons]
          have hE : objGet (mfold key F (mstep key F d s) T) a
              = some (F s (objGet d a)) := by
            rw [objGet_mfold_ne key F _ T a hT, mstep_some key F d s a hk]
            exact objGet_objSet_self d a _
          have hnoop : mstep key F (mfold key F (mstep key F d s) T) s
              = mfold key F (mstep key F d s) T := by
            rw [mstep_some key F _ s a hk, hE, hF]
            exact objSet_self _ a _ hE
          rw [hnoop]
          exact ih _ hndT

/-- A per-step invariant on the view of one key's record lifts to the fold. -/
theorem mfold_view {α : Type} (key : σ → Option String)
    (F : σ → Option MetricRecord → MetricRecord) (d : Dataset) (L : List σ)
    (a : String) (v : Option MetricRecord → α)
    (hF : ∀ s x, v (some (F s x)) = v x) :
    v (objGet (mfold key F d L) a) = v (objGet d a) := by
  induction L generalizing d with
  | nil => rfl
  | cons s T ih =>
      rw [mfold_cons, ih]
      cases hk : key s with
      | none =>
          rw [mstep_none key F d s hk]
      | some b =>
          rw [mstep_some key F d s b hk]
          by_cases hb : a = b
          · subst hb
            rw [objGet_objSet_self, hF]
          · rw [objGet_objSet_ne _ _ _ _ hb]

/-- A field of an existing record that no step rewrites survives the fold,
and the record itself stays present. -/
theorem mfold_preserve_present {α : Type} (key : σ → Option String)
    (F : σ → Option MetricRecord → MetricRecord) (d : Dataset) (L : List σ)
    (a : String) (r : MetricRecord) (g : MetricRecord → α)
    (hF : ∀ s x, g (F s (some x)) = g x) (h : objGet d a = some r) :
    ∃ r', objGet (mfold key F d L) a = some r' ∧ g r' = g r := by
  induction L generalizing d r with
  | nil => exact ⟨r, h, rfl⟩
  | cons s T ih =>
      rw [mfold_cons]
      cases hk : key s with
      | none =>
          rw [mstep_none key F d s hk]
          exact ih d r h
      | some b =>
          by_cases hb : a = b
          · subst hb
            have hstep : objGet (mstep key F d s) a = some (F s (some r)) := by
              rw [mstep_some key F d s a hk, h]
              exact objGet_objSet_self d a _
            obtain ⟨r', hr', hg⟩ := ih _ _ hstep
            exact ⟨r', hr', by rw [hg, hF]⟩
          · have hstep : objGet (mstep key F d s) a = some r := by
              rw [mstep, hk, objGet_objSet_ne _ _ _ _ hb, h]
            exact ih _ _ hstep

end MergeFold

theorem oewsApply_idem (val : Option ℚ) (x : Option MetricRecord) :
    oewsApply val (some (oewsApply val x)) = oewsApply val x := by
  cases val <;> cases x <;> simp [oewsApply]

theorem lausApply_idem (s : Series) (x : Option MetricRecord) :
    lausApply s (some (lausApply s x)) = lausApply s x := by
  unfold lausApply
  cases s.data.head? with
  | none =>
      cases x with
      | none => simp
      | some r => by_cases hr : r.unemployment_rate = none <;> simp [hr]
  | some row =>
      by_cases hv : row.value = ""
      · simp only [if_pos hv]
        cases x with
        | none => simp
        | some r => by_cases hr : r.unemployment_rate = none <;> simp [hr]
      · simp only [if_neg hv]

/-- The 49 state abbreviations of the `STATES` table are pairwise distinct. -/
theorem states_keys_nodup :
    (STATES.filterMap (fun q : String × String => some q.1)).Nodup := by
  decide

/-- Claim C2: `merge` is idempotent — applying the identical update twice
yields the same dataset as applying it once, `merge(merge(D, U), U) =
merge(D, U)`.  Stated for both merge loops: the OEWS wage merge for every
dataset and every pair of primary/fallback value maps, and the LAUS
unemployment merge for every dataset and every response whose series, as an
update mapping, name each state at most once. -/
theorem merge_idempotent :
    (∀ (d : Dataset) (vp vf : List (String × Option ℚ)),
        oewsMerge (oewsMerge d vp vf) vp vf = oewsMerge d vp vf) ∧
    ∀ (d : Dataset) (S : List Series), (S.filterMap lausKey).Nodup →
        lausMerge (lausMerge d S) S = lausMerge d S := by
  constructor
  · intro d vp vf
    simp only [oewsMerge_eq_mfold]
    exact mfold_idem _ _ d STATES states_keys_nodup
      (fun p x => oewsApply_idem _ x)
  · intro d S h
    simp only [lausMerge_eq_mfold]
    exact mfold_idem _ _ d S h (fun s x => lausApply_idem s x)

/-- Witness for C2 at a concrete dataset and response. -/
theorem merge_idempotent_witness :
    lausMerge (lausMerge [] [⟨"LASST060000000000003", [⟨"M08", "4.1"⟩]⟩])
        [⟨"LASST060000000000003", [⟨"M08", "4.1"⟩]⟩] =
      lausMerge [] [⟨"LASST060000000000003", [⟨"M08", "4.1"⟩]⟩] :=
  merge_idempotent.2 [] [⟨"LASST060000000000003", [⟨"M08", "4.1"⟩]⟩]
    (by decide)

/-- The `swdev_wage` field seen through a possibly-absent record. -/
def swdevView (x : Option MetricRecord) : Option (Option ℚ) :=
  match x with
  | some r => r.swdev_wage
  | none => none

theorem lausApply_swdev (s : Series) (x : Option MetricRecord) :
    (lausApply s x).swdev_wage = swdevView x := by
  cases hrow : s.data.head? with
  | none =>
      cases x with
      | none => simp [lausApply, swdevView, hrow]
      | some r =>
          by_cases hr : r.unemployment_rate = none <;>
            simp [lausApply, swdevView, hrow, hr]
  | some row =>
      by_cases hv : row.value = ""
      · cases x with
        | none => simp [lausApply, swdevView, hrow, hv]
        | some r =>
            by_cases hr : r.unemployment_rate = none <;>
              simp [lausApply, swdevView, hrow, hv, hr]
      · cases x with
        | none => simp [lausApply, swdevView, hrow, hv]
        | some r => simp [lausApply, swdevView, hrow, hv]

theorem oewsApply_rate (val : Option ℚ) (r : MetricRecord) :
    (oewsApply val (some r)).unemployment_rate = r.unemployment_rate := by
  cases val <;> rfl

/-- Counterexample to claim C3 as stated: with an empty existing dataset and
an empty update (no primary and no fallback values, so no region is present
in the update), the OEWS merge does not pass region CA through unchanged —
it creates a default record for it. -/
theorem oews_merge_creates_unupdated_region :
    oewsVal [] [] "06" = none ∧
    objGet ([] : Dataset) "CA" = none ∧
    objGet (oewsMerge [] [] []) "CA" = some ⟨some none, some none⟩ := by
  refine ⟨rfl, rfl, ?_⟩
  decide

/-- Claim C3 (amended): for every region with an existing record, merge
leaves the field it is not responsible for unchanged — the LAUS merge never
alters `swdev_wage` (of present or absent records alike) and the OEWS merge
never alters `unemployment_rate` of an existing record; regions not named
by the LAUS response pass through unchanged, and keys outside the `STATES`
table pass through the OEWS merge unchanged.  (As the counterexample shows,
the OEWS merge additionally default-creates records for tracked regions
absent from the existing dataset even when they have no update value, so
the original unconditional pass-through claim fails.) -/
theorem merge_preserves_untouched_fields :
    (∀ (d : Dataset) (S : List Series) (a : String),
        (∀ s ∈ S, lausKey s ≠ some a) →
        objGet (lausMerge d S) a = objGet d a) ∧
    (∀ (d : Dataset) (S : List Series) (a : String),
        swdevView (objGet (lausMerge d S) a) = swdevView (objGet d a)) ∧
    (∀ (d : Dataset) (S : List Series) (a : String) (r : MetricRecord),
        objGet d a = some r →
        ∃ r', objGet (lausMerge d S) a = some r' ∧
          r'.swdev_wage = r.swdev_wage) ∧
    (∀ (d : Dataset) (vp vf : List (String × Option ℚ)) (a : String)
        (r : MetricRecord), objGet d a = some r →
        ∃ r', objGet (oewsMerge d vp vf) a = some r' ∧
          r'.unemployment_rate = r.unemployment_rate) ∧
    (∀ (d : Dataset) (vp vf : List (String × Option ℚ)) (a : String),
        (∀ p ∈ STATES, p.1 ≠ a) →
        objGet (oewsMerge d vp vf) a = objGet d a) := by
  refine ⟨?_, ?_, ?_, ?_, ?_⟩
  · intro d S a h
    rw [lausMerge_eq_mfold]
    exact objGet_mfold_ne _ _ d S a h
  · intro d S a
    rw [lausMerge_eq_mfold]
    exact mfold_view _ _ d S a swdevView (fun s x => lausApply_swdev s x)
  · intro d S a r h
    rw [lausMerge_eq_mfold]
    exact mfold_preserve_present _ _ d S a r MetricRecord.swdev_wage
      (fun s x => lausApply_swdev s (some x)) h
  · intro d vp vf a r h
    rw [oewsMerge_eq_mfold]
    exact mfold_preserve_present _ _ d STATES a r
      MetricRecord.unemployment_rate (fun p x => oewsApply_rate _ x) h
  · intro d vp vf a h
    rw [oewsMerge_eq_mfold]
    exact objGet_mfold_ne _ _ d STATES a
      (fun p hp hk => h p hp (by injection hk))

/-- Witness for C3 (amended), the spec's own example: existing
`CA = {unemployment_rate: 4.1, swdev_wage: 150000}`, a LAUS update for CA —
the stored `swdev_wage` survives. -/
theorem merge_preserves_untouched_fields_witness :
    ∃ r', objGet (lausMerge
        [("CA", ⟨some (some (41 / 10)), some (some 150000)⟩)]
        [⟨"LASST060000000000003", [⟨"M08", "4.3"⟩]⟩]) "CA" = some r' ∧
      r'.swdev_wage = (⟨some (some (41 / 10)), some (some 150000)⟩ :
        MetricRecord).swdev_wage :=
  merge_preserves_untouched_fields.2.2.1
    [("CA", ⟨some (some (41 / 10)), some (some 150000)⟩)]
    [⟨"LASST060000000000003", [⟨"M08", "4.3"⟩]⟩] "CA"
    ⟨some (some (41 / 10)), some (some 150000)⟩ rfl

/-- Counterexample to claim C7 as stated: merging a LAUS response into an
empty dataset creates, for the touched region, a record containing only
`unemployment_rate`; its `swdev_wage` field is absent, not an explicit
null. -/
theorem laus_merge_record_lacks_wage_field :
    lausMerge [] [⟨"LASST060000000000003", []⟩] =
      [("CA", ⟨some none, none⟩)] := by
  decide

/-- Claim C7 (amended): the OEWS wage merge creates, for every tracked
region absent from the existing dataset, a record with both metric fields
defaulted to explicit null before applying its value — so a region with no
primary and no fallback wage value keeps `swdev_wage` as explicit null —
while the LAUS unemployment merge creates records containing only the
`unemployment_rate` field, leaving `swdev_wage` absent until a wage run
touches the region. -/
theorem merge_field_defaults :
    (∀ (d : Dataset) (vp vf : List (String × Option ℚ))
        (p : String × String), p ∈ STATES → objGet d p.1 = none →
        oewsVal vp vf p.2 = none →
        objGet (oewsMerge d vp vf) p.1 = some ⟨some none, some none⟩) ∧
    (∀ (d : Dataset) (vp vf : List (String × Option ℚ))
        (p : String × String) (v : ℚ), p ∈ STATES → objGet d p.1 = none →
        oewsVal vp vf p.2 = some v →
        objGet (oewsMerge d vp vf) p.1 = some ⟨some none, some (some v)⟩) ∧
    (∀ (d : Dataset) (S : List Series) (a : String) (r' : MetricRecord),
        objGet d a = none → objGet (lausMerge d S) a = some r' →
        r'.swdev_wage = none) := by
  refine ⟨?_, ?_, ?_⟩
  · intro d vp vf p hp hd hv
    rw [oewsMerge_eq_mfold,
      objGet_mfold_mem _ _ d STATES p p.1 states_keys_nodup hp rfl, hd]
    simp [oewsApply, hv]
  · intro d vp vf p v hp hd hv
    rw [oewsMerge_eq_mfold,
      objGet_mfold_mem _ _ d STATES p p.1 states_keys_nodup hp rfl, hd]
    simp [oewsApply, hv]
  · intro d S a r' hd hr'
    have h : swdevView (objGet (lausMerge d S) a) = swdevView (objGet d a) := by
      rw [lausMerge_eq_mfold]
      exact mfold_view _ _ d S a swdevView (fun s x => lausApply_swdev s x)
    rw [hr', hd] at h
    exact h

/-- Witness for C7 (amended): state CA, absent from an empty dataset, with
no primary and no fallback value, ends up with both fields explicit null. -/
theorem merge_field_defaults_witness :
    objGet (oewsMerge [] [] []) "CA" = some ⟨some none, some none⟩ :=
  merge_field_defaults.1 [] [] [] ("CA", "06") (by decide) rfl rfl

theorem lausMerge_cons (d : Dataset) (s : Series) (T : List Series) :
    lausMerge d (s :: T) = lausMerge (lausStep d s) T := rfl

theorem lausApply_empty (s : Series) (hs : isEmptyRow s = true)
    (r : MetricRecord) :
    lausApply s (some r) =
      if r.unemployment_rate = none then
        { r with unemployment_rate := some none }
      else r := by
  unfold isEmptyRow at hs
  cases hrow : s.data.head? with
  | none => simp [lausApply, hrow]
  | some row =>
      rw [hrow] at hs
      simp only [decide_eq_true_eq] at hs
      simp [lausApply, hrow, hs]

theorem objGet_lausStep_ne (d : Dataset) (s : Series) (a : String)
    (h : lausKey s ≠ some a) : objGet (lausStep d s) a = objGet d a := by
  rw [lausStep_eq_mstep]
  exact objGet_mstep_ne _ _ d s a h

/-- Through any run of series that touch state `a` only with empty latest
rows, a present `unemployment_rate` value survives unchanged. -/
theorem laus_empty_fold_present (S : List Series) (d : Dataset) (a : String)
    (r : MetricRecord) (v : Option ℚ) (hr : objGet d a = some r)
    (hv : r.unemployment_rate = some v)
    (hS : ∀ s ∈ S, lausKey s = some a → isEmptyRow s = true) :
    ∃ r', objGet (lausMerge d S) a = some r' ∧
      r'.unemployment_rate = some v := by
  induction S generalizing d r with
  | nil => exact ⟨r, hr, hv⟩
  | cons s T ih =>
      rw [lausMerge_cons]
      by_cases hk : lausKey s = some a
      · have hstep : objGet (lausStep d s) a = some r := by
          rw [lausStep_eq_mstep, mstep_some _ _ d s a hk, hr,
            objGet_objSet_self d a _, lausApply_empty s (hS s (by simp) hk) r,
            hv]
          simp
        exact ih _ _ hstep hv (fun u hu => hS u (by simp [hu]))
      · have hstep : objGet (lausStep d s) a = some r := by
          rw [objGet_lausStep_ne d s a hk, hr]
        exact ih _ _ hstep hv (fun u hu => hS u (by simp [hu]))

/-- If the record exists but its `unemployment_rate` field is absent, a run
of empty-row series for `a` materialises an explicit null. -/
theorem laus_empty_fold_absent (S : List Series) (d : Dataset) (a : String)
    (r : MetricRecord) (hr : objGet d a = some r)
    (hnone : r.unemployment_rate = none)
    (hex : ∃ s ∈ S, lausKey s = some a)
    (hS : ∀ s ∈ S, lausKey s = some a → isEmptyRow s = true) :
    ∃ r', objGet (lausMerge d S) a = some r' ∧
      r'.unemployment_rate = some none := by
  induction S generalizing d with
  | nil => obtain ⟨s, hs, _⟩ := hex; cases hs
  | cons s T ih =>
      rw [lausMerge_cons]
      by_cases hk : lausKey s = some a
      · have hstep : objGet (lausStep d s) a
            = some { r with unemployment_rate := some none } := by
          rw [lausStep_eq_mstep, mstep_some _ _ d s a hk, hr,
            objGet_objSet_self d a _, lausApply_empty s (hS s (by simp) hk) r,
            hnone]
          simp
        exact laus_empty_fold_present T _ a _ none hstep rfl
          (fun u hu => hS u (by simp [hu]))
      · have hstep : objGet (lausStep d s) a = some r := by
          rw [objGet_lausStep_ne d s a hk, hr]
        obtain ⟨u, hu, hku⟩ := hex
        have hu' : u ∈ T := by
          rcases List.mem_cons.mp hu with h | h
          · exact absurd (h ▸ hku) hk
          · exact h
        exact ih _ hstep ⟨u, hu', hku⟩ (fun w hw => hS w (by simp [hw]))

/-- Claim C10: in the unemployment merge, when a state's series appears in
the API response but its latest observation is empty, an existing stored
`unemployment_rate` is left unchanged — the field is set to null only if it
was previously absent from the record — so a fetched-empty observation
never overwrites a previously stored value. -/
theorem laus_empty_value_never_overwrites :
    (∀ (S : List Series) (d : Dataset) (a : String) (r : MetricRecord)
        (v : Option ℚ), objGet d a = some r →
        r.unemployment_rate = some v →
        (∀ s ∈ S, lausKey s = some a → isEmptyRow s = true) →
        ∃ r', objGet (lausMerge d S) a = some r' ∧
          r'.unemployment_rate = some v) ∧
    ∀ (S : List Series) (d : Dataset) (a : String) (r : MetricRecord),
        objGet d a = some r → r.unemployment_rate = none →
        (∃ s ∈ S, lausKey s = some a) →
        (∀ s ∈ S, lausKey s = some a → isEmptyRow s = true) →
        ∃ r', objGet (lausMerge d S) a = some r' ∧
          r'.unemployment_rate = some none :=
  ⟨fun S d a r v hr hv hS => laus_empty_fold_present S d a r v hr hv hS,
   fun S d a r hr hnone hex hS =>
     laus_empty_fold_absent S d a r hr hnone hex hS⟩

/-- Witness for C10: an empty latest observation for CA leaves the stored
rate `7` untouched. -/
theorem laus_empty_value_never_overwrites_witness :
    ∃ r', objGet (lausMerge [("CA", ⟨some (some 7), none⟩)]
        [⟨"LASST060000000000003", []⟩]) "CA" = some r' ∧
      r'.unemployment_rate = some (some 7) :=
  laus_empty_value_never_overwrites.1 [⟨"LASST060000000000003", []⟩]
    [("CA", ⟨some (some 7), none⟩)] "CA" ⟨some (some 7), none⟩ (some 7) rfl
    rfl (by decide)

/-- `pat` occurs as a contiguous substring of `l` (JS `String.includes`). -/
def listContains : List Char → List Char → Bool
  | pat, [] => pat.isPrefixOf []
  | pat, c :: t => pat.isPrefixOf (c :: t) || listContains pat t

/-- JS `s.includes(pat)`. -/
def containsStr (s pat : String) : Bool :=
  listContains pat.toList s.toList

/-- Quota classification of a caught error message
(`fetch-laus.js` line 57): `m.includes("daily threshold") ||
m.includes("REQUEST_NOT_PROCESSED")`. -/
def isQuotaMsg (m : String) : Bool :=
  containsStr m "daily threshold" || containsStr m "REQUEST_NOT_PROCESSED"

/-- The LAUS phase (`fetch-laus.js` `main`, lines 47-104) on the persisted
dataset, with the single batch call's outcome passed explicitly: on success
the response is merged; on a quota-classified failure the existing dataset
is written back unchanged (and mirrored) and the phase exits successfully;
any other failure is rethrown, failing the phase. -/
def lausRun (d : Dataset) (outcome : Except String (List Series)) :
    Except String Dataset :=
  match outcome with
  | .ok mergedSeries => .ok (lausMerge d mergedSeries)
  | .error m => if isQuotaMsg m then .ok d else .error m

/-- States whose primary series id is absent from the primary result
(`fetch-oews.js` lines 84-88). -/
def oewsMissing (vp : List (String × Option ℚ)) : List (String × String) :=
  STATES.filter (fun p =>
    (objGet vp
      (makeSeriesIdFromArea (areaCodeFromFips p.2) PRIMARY_DATATYPE)).isNone)

/-- The OEWS phase (`fetch-oews.js` `main`, lines 64-135) on the persisted
dataset, with the primary fetch outcome and — consulted only when some
state is missing a primary value — the fallback-tier fetch outcome passed
explicitly.  The chunked calls of one tier are folded into one outcome:
any chunk failure throws before anything is written.  `main` has no
try/catch, so every fetch failure (quota included) propagates and the
phase writes nothing. -/
def oewsRun (d : Dataset)
    (primary fallback : Except String (List (String × Option ℚ))) :
    Except String Dataset :=
  match primary with
  | .error m => .error m
  | .ok vp =>
      if (oewsMissing vp).isEmpty then .ok (oewsMerge d vp [])
      else
        match fallback with
        | .error m => .error m
        | .ok vf => .ok (oewsMerge d vp vf)

/-- The orchestrator (`fetch-bls.js`): run the OEWS phase, then, only if it
exited successfully, the LAUS phase; a failing phase aborts the run. -/
def fetchBls (d : Dataset)
    (primary fallback : Except String (List (String × Option ℚ)))
    (laus : Except String (List Series)) : Except String Dataset :=
  match oewsRun d primary fallback with
  | .error m => .error m
  | .ok d1 => lausRun d1 laus

/-- A concrete quota-rejection error message as thrown by `fetchLatest`. -/
def quotaMsg : String :=
  "BLS API failure: daily threshold for this API key has been reached"

/-- Counterexample to claim C4 as stated: a `QuotaExceeded` failure of the
primary batch call of the wage (OEWS) phase is not caught at any phase
boundary — the run aborts with the error and the other (LAUS) phase is
never reached, contradicting that the run proceeds to or completes the
other phase instead of aborting. -/
theorem wage_quota_aborts_run :
    isQuotaMsg quotaMsg = true ∧
    fetchBls [] (.error quotaMsg) (.ok []) (.ok []) = .error quotaMsg := by
  exact ⟨by decide, rfl⟩

/-- Claim C4 (amended): a `QuotaExceeded` failure of the unemployment
(LAUS) phase's batch call is caught at the phase boundary — the phase's
post-run dataset equals its pre-run dataset and the run completes with the
wage phase's result intact; a `QuotaExceeded` failure in the wage (OEWS)
phase, which has no quota handler, aborts the run before the LAUS phase
(its dataset is still preserved, since the phase writes nothing before the
fetch). -/
theorem quota_phase_boundary :
    (∀ (d : Dataset) (m : String), isQuotaMsg m = true →
        lausRun d (.error m) = .ok d) ∧
    (∀ (d d1 : Dataset)
        (primary fallback : Except String (List (String × Option ℚ)))
        (m : String), isQuotaMsg m = true →
        oewsRun d primary fallback = .ok d1 →
        fetchBls d primary fallback (.error m) = .ok d1) ∧
    ∀ (d : Dataset) (fallback : Except String (List (String × Option ℚ)))
        (laus : Except String (List Series)) (m : String),
        fetchBls d (.error m) fallback laus = .error m := by
  refine ⟨?_, ?_, ?_⟩
  · intro d m h
    simp [lausRun, h]
  · intro d d1 primary fallback m h h1
    simp [fetchBls, h1, lausRun, h]
  · intro d fallback laus m
    rfl

/-- Witness for C4 (amended): with the wage phase succeeding and the LAUS
batch call rejected for quota, the run completes and the persisted dataset
is exactly the wage phase's output. -/
theorem quota_phase_boundary_witness :
    fetchBls [] (.ok []) (.ok []) (.error quotaMsg) =
      .ok (oewsMerge [] [] []) :=
  quota_phase_boundary.2.1 [] (oewsMerge [] [] []) (.ok []) (.ok [])
    quotaMsg (by decide) rfl

/-- Counterexample to claim C8 as stated: a `QuotaExceeded` failure during
fallback resolution (primary result already obtained, all states missing)
escalates — the wage phase returns the error instead of merging and
persisting the primary result. -/
theorem fallback_quota_aborts_phase :
    isQuotaMsg quotaMsg = true ∧
    oewsRun [] (.ok []) (.error quotaMsg) = .error quotaMsg := by
  exact ⟨by decide, rfl⟩

/-- Claim C8 (amended): the fallback resolution has no error handling —
whenever some state is missing a primary value and the fallback fetch
fails (quota included), the failure propagates out of the wage phase, which
merges and persists nothing. -/
theorem fallback_quota_propagates :
    ∀ (d : Dataset) (vp : List (String × Option ℚ)) (m : String),
      (oewsMissing vp).isEmpty = false →
      oewsRun d (.ok vp) (.error m) = .error m := by
  intro d vp m h
  simp [oewsRun, h]

/-- Witness for C8 (amended): empty primary result, quota failure in the
fallback tier — the phase fails with that error. -/
theorem fallback_quota_propagates_witness :
    oewsRun [] (.ok []) (.error quotaMsg) = .error quotaMsg :=
  fallback_quota_propagates [] [] quotaMsg (by decide)

/-- `allSeriesIds` (`fetch-laus.js` line 49):
`Object.values(STATES).map(buildSeriesId)`. -/
def lausAllSeriesIds : List String :=
  STATES.map (fun p => buildSeriesId p.2)

/-- `primaryIds` (`fetch-oews.js` lines 69-71): the annual-mean-wage series
identifier of every tracked state. -/
def primaryIds : List String :=
  STATES.map (fun p =>
    makeSeriesIdFromArea (areaCodeFromFips p.2) PRIMARY_DATATYPE)

theorem buildSeriesId_injective (f1 f2 : String)
    (h : buildSeriesId f1 = buildSeriesId f2) : f1 = f2 := by
  apply String.ext
  have hd := congrArg String.data h
  simp only [buildSeriesId, String.data_append, List.append_assoc] at hd
  exact List.append_cancel_right
    (List.append_cancel_left (List.append_cancel_left
      (List.append_cancel_left hd)))

theorem oewsId_injective (f1 f2 dt : String)
    (h : makeSeriesIdFromArea (areaCodeFromFips f1) dt =
      makeSeriesIdFromArea (areaCodeFromFips f2) dt) : f1 = f2 := by
  apply String.ext
  have hd := congrArg String.data h
  simp only [makeSeriesIdFromArea, areaCodeFromFips, String.data_append,
    List.append_assoc] at hd
  exact List.append_cancel_right
    (List.append_cancel_left (List.append_cancel_left
      (List.append_cancel_left hd)))

/-- Counterexample to claim C5 as stated: `"99"` is mapped by no entry of
the `STATES` table, yet both identifier builders return silently for it —
an identifier string is produced, no error is raised. -/
theorem unmapped_code_builds_id :
    STATES.all (fun p => p.2 ≠ "99") = true ∧
    buildSeriesId "99" = "LASST990000000000003" ∧
    makeSeriesIdFromArea (areaCodeFromFips "99") "04" =
      "OEUS990000000000015125204" := by
  exact ⟨by decide, by decide, by decide⟩

/-- Claim C5 (amended): the identifier builders perform no validation — for
every region-code string, mapped or not, they totally return the
concatenated identifier and raise nothing.  The construction is injective
in the region code, so an unmapped code silently yields a malformed
identifier that coincides with no tracked region's identifier (it queries
no tracked series) instead of failing loudly. -/
theorem buildId_no_validation :
    (∀ f1 f2 : String, buildSeriesId f1 = buildSeriesId f2 → f1 = f2) ∧
    (∀ f1 f2 dt : String,
        makeSeriesIdFromArea (areaCodeFromFips f1) dt =
          makeSeriesIdFromArea (areaCodeFromFips f2) dt → f1 = f2) ∧
    (∀ f : String, f ∉ STATES.map Prod.snd →
        buildSeriesId f ∉ lausAllSeriesIds) ∧
    ∀ f : String, f ∉ STATES.map Prod.snd →
        makeSeriesIdFromArea (areaCodeFromFips f) PRIMARY_DATATYPE ∉
          primaryIds := by
  refine ⟨buildSeriesId_injective, oewsId_injective, ?_, ?_⟩
  · intro f hf hmem
    obtain ⟨p, hp, heq⟩ := List.mem_map.mp hmem
    have hpf : p.2 = f := buildSeriesId_injective p.2 f heq
    exact hf (hpf ▸ List.mem_map.mpr ⟨p, hp, rfl⟩)
  · intro f hf hmem
    obtain ⟨p, hp, heq⟩ := List.mem_map.mp hmem
    have hpf : p.2 = f := oewsId_injective p.2 f PRIMARY_DATATYPE heq
    exact hf (hpf ▸ List.mem_map.mpr ⟨p, hp, rfl⟩)

/-- Witness for C5 (amended): the malformed identifier built from the
unmapped code `"99"` is none of the 49 tracked LAUS identifiers. -/
theorem buildId_no_validation_witness :
    buildSeriesId "99" ∉ lausAllSeriesIds :=
  buildId_no_validation.2.2.1 "99" (by decide)

/-- The chunking loop of the OEWS fetch (`fetch-oews.js` lines 74-75):
`for (let i = 0; i < ids.length; i += 25) chunks.push(ids.slice(i, i + 25))`
— iteration `k` pushes `ids.slice(25k, 25k + 25)`. -/
def chunksOf25 (l : List String) : List (List String) :=
  (List.range ((l.length + 24) / 25)).map
    (fun k => (l.drop (25 * k)).take 25)

/-- The id batches of the OEWS primary fetch, one `fetchLatest` call each
(`fetch-oews.js` lines 77-81). -/
def oewsPrimaryRequests : List (List String) := chunksOf25 primaryIds

/-- The LAUS fetch issues one single `fetchLatest` call carrying all series
identifiers (`fetch-laus.js` lines 49-54). -/
def lausRequests : List (List String) := [lausAllSeriesIds]

theorem chunksOf25_le (l c : List String) (hc : c ∈ chunksOf25 l) :
    c.length ≤ 25 := by
  obtain ⟨k, _, hk⟩ := List.mem_map.mp hc
  rw [← hk, List.length_take]
  omega

theorem chunksOf25_flatten_aux (n : ℕ) :
    ∀ l : List String, l.length ≤ 25 * n →
      ((List.range n).map (fun k => (l.drop (25 * k)).take 25)).flatten
        = l := by
  induction n with
  | zero =>
      intro l hl
      have : l = [] := List.eq_nil_of_length_eq_zero (by omega)
      simp [this]
  | succ n ih =>
      intro l hl
      rw [List.range_succ_eq_map]
      simp only [List.map_cons, List.map_map, List.flatten_cons]
      have hcomp :
          ((fun k => (l.drop (25 * k)).take 25) ∘ Nat.succ)
            = fun k => ((l.drop 25).drop (25 * k)).take 25 := by
        funext k
        simp only [Function.comp_apply, List.drop_drop]
        congr 2
        omega
      rw [hcomp, ih (l.drop 25) (by rw [List.length_drop]; omega)]
      simp [Nat.mul_zero, List.take_append_drop]

theorem chunksOf25_flatten (l : List String) :
    (chunksOf25 l).flatten = l := by
  apply chunksOf25_flatten_aux
  have h := Nat.div_add_mod (l.length + 24) 25
  have h2 : (l.length + 24) % 25 < 25 := Nat.mod_lt _ (by norm_num)
  omega

/-- Counterexample to claim C6 as stated: the LAUS batch fetcher does not
split its input — its one network request carries all 49 identifiers,
exceeding the fixed maximum of 25. -/
theorem laus_single_oversized_request :
    lausRequests.map List.length = [49] ∧ ¬ (49 ≤ 25) := by
  exact ⟨by decide, by decide⟩

/-- Claim C6 (amended): the OEWS wage fetcher splits any input sequence of
identifiers into batches of at most 25, issues one call per batch, and the
batches concatenate back to the input; the LAUS unemployment fetcher
instead issues a single call carrying all 49 identifiers. -/
theorem batch_size_limits :
    (∀ l c : List String, c ∈ chunksOf25 l → c.length ≤ 25) ∧
    (∀ l : List String, (chunksOf25 l).flatten = l) ∧
    (∀ c ∈ oewsPrimaryRequests, c.length ≤ 25) ∧
    lausRequests.map List.length = [49] := by
  refine ⟨chunksOf25_le, chunksOf25_flatten, ?_, by decide⟩
  intro c hc
  exact chunksOf25_le primaryIds c hc

/-- Witness for C6 (amended) at a concrete identifier list. -/
theorem batch_size_limits_witness :
    (["a", "b"] : List String).length ≤ 25 :=
  batch_size_limits.1 ["a", "b"] ["a", "b"] (by simp [chunksOf25])

/-- Claim C9: the fallback unit conversion is fixed and deterministic — a
fallback hourly wage is annualised by the fixed 2080 working hours and the
`Math.round` rounding rule, so an hourly value of 72.0 yields exactly
`round(72.0 × 2080) = 149760`; stated both for the rounding function and
for the resolved per-state value when the primary map is empty and the
fallback map carries hourly 72.0 for California. -/
theorem fallback_conversion_golden :
    jsRound (72 * 2080) = 149760 ∧
    oewsVal []
        [(makeSeriesIdFromArea (areaCodeFromFips "06") "03", some 72)]
        "06" = some 149760 := by
  have h : jsRound (72 * 2080) = 149760 := by
    rw [jsRound, Int.floor_eq_iff]
    norm_num
  refine ⟨h, ?_⟩
  simp [oewsVal, objGet, h]

end LaborMap
